import Mathlib

/-!
Shallow embedding of `imageprocessing.py` (the `py-imageprocessing`
repository): URL acquisition via a generative-AI text service, image
download, and grayscale conversion.  External collaborators (the Gemini
client, `requests.get`, OpenCV, the file system) are modelled as explicit
oracle environments; `sys.exit` is modelled as an `Except.error` value
carrying the exit code and the printed message.
-/

namespace ImageProcessing

/-- Raw byte content of an HTTP response body or of a file on disk. -/
abbrev Bytes := List Nat

/-- Outcome of the `requests.get(url, timeout=5)` call inside
`is_accessible`: an HTTP response with a status code, or one of the two
exception classes the source catches (`requests.RequestException`,
`ValueError`). -/
inductive GetOutcome where
  | status (code : Nat)
  | requestException (msg : String)
  | valueError (msg : String)
  deriving DecidableEq

/-- External collaborators of `generate_image_urls`:
`generate k prompt` is the response of the `k`-th
`client.models.generate_content` call of the run (with `Except.error msg`
modelling `genai.errors.ServerError`), and `get k url` is the outcome of the
`k`-th reachability GET issued by `is_accessible`. -/
structure Env where
  generate : Nat → String → Except String String
  get : Nat → String → GetOutcome

/-- Python `str.strip()` restricted to ASCII whitespace: drop whitespace from
both ends. -/
def pyStrip (s : String) : String :=
  ⟨((s.data.dropWhile Char.isWhitespace).reverse.dropWhile Char.isWhitespace).reverse⟩

/-- Python `str.split('\n')` on the underlying character list; the result is
never empty and `[[]]` for the empty string. -/
def splitNl : List Char → List (List Char)
  | [] => [[]]
  | c :: cs =>
    let r := splitNl cs
    if c = '\n' then [] :: r
    else (c :: r.headD []) :: r.tail

/-- Python `str.split('\n')` on strings. -/
def pySplitNl (s : String) : List String :=
  (splitNl s.data).map (fun l => ⟨l⟩)

/-- The generation prompt of `generate_image_urls`, with `{n}` formatted in. -/
def generation_prompt (numimages : Int) : String :=
  "Generate " ++ toString numimages ++ " public domain image URL (either JPEG or PNG format) from " ++
  "trusted public domain image repositories, except any Wikimedia-related ones." ++
  "The URL must directly point to a valid image file ending with .jpg or .png " ++
  "and the file size must be less than 200 KB. Provide the final image URLs in " ++
  "plain text."

/-- The extraction prompt of `generate_image_urls`, with `{text}` formatted in. -/
def extraction_prompt (text : String) : String :=
  "Extract all URLs from the following contents into a plain text list. " ++
  "Each URL must be on a new line. These are the contents: " ++ text

/-- `is_accessible(url)` given the outcome of its GET: true exactly on HTTP
status 200; a `RequestException` or `ValueError` is caught, an
`Error accessing {url}: {e}` line is printed (second component) and `False`
is returned.  The function never propagates these exceptions. -/
def is_accessible (resp : GetOutcome) (url : String) : Bool × List String :=
  match resp with
  | .status code => (code == 200, [])
  | .requestException e => (false, ["Error accessing " ++ url ++ ": " ++ e])
  | .valueError e => (false, ["Error accessing " ++ url ++ ": " ++ e])

/-- The `for url in urls` body of `generate_image_urls`: strip each candidate,
test reachability (advancing the GET counter `c` by one per candidate),
append on success, and break out of the batch as soon as
`len(image_urls) == numimages`.  Returns the accumulated list and the new GET
counter. -/
def acquireFromBatch (env : Env) (numimages : Int) :
    List String → List String → Nat → List String × Nat
  | [], acc, c => (acc, c)
  | url :: rest, acc, c =>
    let u := pyStrip url
    let acc' := if (is_accessible (env.get c u) u).1 then acc ++ [u] else acc
    if (acc'.length : Int) = numimages then (acc', c + 1)
    else acquireFromBatch env numimages rest acc' (c + 1)

/-- The `while len(image_urls) < numimages` loop of `generate_image_urls`,
with explicit `fuel` bounding the number of iterations (the Python loop is
unbounded; `none` means the fuel ran out first).  A `ServerError` from either
`generate_content` call makes the function print `Error: {msg}` and call
`sys.exit(1)`, modelled by `Except.error (1, printed message)`.  On normal
return the accumulated list is produced together with the number of
`generate_content` calls and of reachability GETs issued so far. -/
def generate_image_urls_loop (env : Env) (numimages : Int) :
    Nat → List String → Nat → Nat →
    Option (Except (Nat × String) (List String × Nat × Nat))
  | 0, _, _, _ => none
  | fuel + 1, image_urls, g, c =>
    if (image_urls.length : Int) < numimages then
      match env.generate g (generation_prompt numimages) with
      | .error err => some (.error (1, "Error: " ++ err))
      | .ok gentext =>
        match env.generate (g + 1) (extraction_prompt gentext) with
        | .error err => some (.error (1, "Error: " ++ err))
        | .ok extext =>
          let urls := pySplitNl (pyStrip extext)
          let r := acquireFromBatch env numimages urls image_urls c
          generate_image_urls_loop env numimages fuel r.1 (g + 2) r.2
    else
      some (.ok (image_urls, g, c))

/-- `generate_image_urls(numimages)`, instrumented with the number of
`generate_content` calls and reachability GETs the run issued. -/
def generate_image_urls_run (env : Env) (fuel : Nat) (numimages : Int) :
    Option (Except (Nat × String) (List String × Nat × Nat)) :=
  generate_image_urls_loop env numimages fuel [] 0 0

/-- `generate_image_urls(numimages)`: the returned URL list, or the
`sys.exit` event, or `none` when the fuel bound was hit. -/
def generate_image_urls (env : Env) (fuel : Nat) (numimages : Int) :
    Option (Except (Nat × String) (List String)) :=
  (generate_image_urls_run env fuel numimages).map (fun r => r.map (fun t => t.1))

/-- Python `str.rfind(c)` on a character list: index of the last occurrence
of `c`, `-1` when absent. -/
def lastIdx : List Char → Char → Int
  | [], _ => -1
  | a :: as, c =>
    if 0 ≤ lastIdx as c then lastIdx as c + 1 else if a = c then 0 else -1

/-- `os.path.splitext` (posixpath): split off the extension at the last dot,
provided that dot lies strictly after the last `/` and the basename does not
consist solely of dots up to it (the leading-dots rule that makes
`splitext(".bashrc")` return no extension). -/
def os_path_splitext (p : String) : String × String :=
  let l := p.data
  let sepIndex := lastIdx l '/'
  let dotIndex := lastIdx l '.'
  if sepIndex < dotIndex then
    let mid := (l.drop (sepIndex + 1).toNat).take (dotIndex - sepIndex - 1).toNat
    if mid.any (fun ch => ch ≠ '.') then
      (⟨l.take dotIndex.toNat⟩, ⟨l.drop dotIndex.toNat⟩)
    else (p, "")
  else (p, "")

/-- `os.path.dirname` (posixpath): everything up to the last `/`, with
trailing separators stripped unless the head consists only of separators. -/
def os_path_dirname (p : String) : String :=
  let l := p.data
  let head := l.take (lastIdx l '/' + 1).toNat
  if head.any (fun ch => ch ≠ '/') then
    ⟨(head.reverse.dropWhile (fun ch => ch = '/')).reverse⟩
  else ⟨head⟩

/-- The characters after the last `/` of a path (the whole path when it has
no separator). -/
def lastSegmentChars : List Char → List Char
  | [] => []
  | a :: as =>
    if '/' ∈ as then lastSegmentChars as
    else if a = '/' then as else a :: as

/-- The file system visible to the pipeline: an association list from path to
byte content (the first binding for a path wins) together with the set of
directories created by `os.makedirs`. -/
structure FS where
  files : List (String × Bytes)
  dirs : List String
  deriving DecidableEq

/-- The file system at program start: no file, no directory of ours. -/
def emptyFS : FS := ⟨[], []⟩

/-- `os.makedirs(d, exist_ok=True)`: record the directory; file contents are
untouched. -/
def FS.makedirs (fs : FS) (d : String) : FS :=
  if d ∈ fs.dirs then fs else { fs with dirs := d :: fs.dirs }

/-- `open(filename, "wb")` followed by `write(content)`: create or overwrite
the file at `filename` with exactly `content`. -/
def FS.writeFile (fs : FS) (filename : String) (content : Bytes) : FS :=
  { fs with files := (filename, content) :: fs.files.filter (fun pc => pc.1 != filename) }

/-- Read the bytes of the file at `path`, `none` when it does not exist. -/
def FS.lookup (fs : FS) (path : String) : Option Bytes :=
  (fs.files.find? (fun pc => pc.1 == path)).map (fun pc => pc.2)

/-- Longest-prefix stripping on character lists: `stripPre pre l = some s`
exactly when `l = pre ++ s`. -/
def stripPre : List Char → List Char → Option (List Char)
  | [], l => some l
  | _ :: _, [] => none
  | a :: as, b :: bs => if a = b then stripPre as bs else none

/-- The names (paths relative to `dir`) of the files of `fs` that live in the
directory `dir`. -/
def FS.filesIn (fs : FS) (dir : String) : List (List Char) :=
  fs.files.filterMap (fun pc => stripPre (dir ++ "/").data pc.1.data)

/-- Decoded image handles and the OpenCV calls used by `to_grayscale`:
`decode` is the decoder behind `cv2.imread` (`none` for bytes it cannot
decode), `cvtColor_gray` is `cv2.cvtColor(·, cv2.COLOR_BGR2GRAY)`, and
`imencode` is the encoding applied by `cv2.imwrite`. -/
structure CvEnv where
  decode : Bytes → Option Nat
  cvtColor_gray : Nat → Nat
  imencode : Nat → Bytes

/-- `download_image(url, filename)` given the response of its GET (issued
with the browser user-agent header): on HTTP 200 create the parent directory
and write the full body to `filename`; on any other status print
`Error while downloading image from {url}` and call `sys.exit(1)`
(`Except.error` carries the exit code, the printed message, and the file
system exactly as it was at exit time). -/
def download_image (resp : Nat × Bytes) (url filename : String) (fs : FS) :
    Except (Nat × String × FS) FS :=
  if resp.1 = 200 then
    .ok ((fs.makedirs (os_path_dirname filename)).writeFile filename resp.2)
  else
    .error (1, "Error while downloading image from " ++ url, fs)

/-- `to_grayscale(input_image, output_image)`: `cv2.imread` reads and decodes
the source (yielding `None` both for a missing file and for undecodable
bytes); on failure print `Error: could not read {input_image}` and return
with the file system untouched; otherwise convert, create the output
directory and write the encoded result.  The second component is the list of
printed messages. -/
def to_grayscale (cv : CvEnv) (input_image output_image : String) (fs : FS) :
    FS × List String :=
  match (fs.lookup input_image).bind cv.decode with
  | none => (fs, ["Error: could not read " ++ input_image])
  | some image =>
    let grayscale := cv.cvtColor_gray image
    (((fs.makedirs (os_path_dirname output_image)).writeFile output_image
      (cv.imencode grayscale)), [])

/-- `IMAGES_DIR = os.path.join(BASE_DIR, "..", "images")` for a `BASE_DIR`
that is not separator-terminated. -/
def IMAGES_DIR (base : String) : String := base ++ "/../images"

/-- `GSIMAGES_DIR = os.path.join(BASE_DIR, "..", "gs-images")`. -/
def GSIMAGES_DIR (base : String) : String := base ++ "/../gs-images"

/-- The body of the `for i in range(len(image_urls))` loop of `__main__` at
index `i`: build `imgDir + os.sep + str(i+1) + os.path.splitext(url)[1]` and
the corresponding grayscale path, download, then convert.  `denv i url` is
the response of the download GET for index `i`. -/
def process_one (imgDir gsDir : String) (cv : CvEnv)
    (denv : Nat → String → Nat × Bytes) (i : Nat) (url : String) (fs : FS) :
    Except (Nat × String × FS) FS :=
  let ext := (os_path_splitext url).2
  let imagefile := imgDir ++ "/" ++ toString (i + 1) ++ ext
  let grayfile := gsDir ++ "/" ++ toString (i + 1) ++ ext
  match download_image (denv i url) url imagefile fs with
  | .error e => .error e
  | .ok fs1 => .ok (to_grayscale cv imagefile grayfile fs1).1

/-- The download-and-convert loop of `__main__`, processing the given urls
with sequential indices from `i` on; a `sys.exit` from `download_image` stops
the loop, and the result carries the file system at that moment together
with the exit event when one happened. -/
def run_from (imgDir gsDir : String) (cv : CvEnv)
    (denv : Nat → String → Nat × Bytes) :
    List String → Nat → FS → FS × Option (Nat × String)
  | [], _, fs => (fs, none)
  | url :: rest, i, fs =>
    match process_one imgDir gsDir cv denv i url fs with
    | .error (code, msg, fsx) => (fsx, some (code, msg))
    | .ok fs1 => run_from imgDir gsDir cv denv rest (i + 1) fs1

/-- `__main__` of `src/imageprocessing.py` (the driver kept under `src/src/`
in this repository): `image_urls = generate_image_urls(int(sys.argv[1]))`,
then download and convert each url in order.  `argv1` is the already-parsed
integer command-line argument. -/
def main_src (base : String) (env : Env) (cv : CvEnv)
    (denv : Nat → String → Nat × Bytes) (fuel : Nat) (argv1 : Int) :
    Option (Except (Nat × String) (List String × FS × Option (Nat × String))) :=
  match generate_image_urls env fuel argv1 with
  | none => none
  | some (.error e) => some (.error e)
  | some (.ok image_urls) =>
    let r := run_from (IMAGES_DIR base) (GSIMAGES_DIR base) cv denv image_urls 0 emptyFS
    some (.ok (image_urls, r.1, r.2))

/-- `__main__` of the top-level `imageprocessing.py` variant: the same driver
except that it never reads `sys.argv` and always calls
`generate_image_urls(1)`, and its directories are the literal relative paths
`"../images"` and `"../gs-images"`.  The command-line argument `argv1` is
ignored by this script. -/
def main_legacy (env : Env) (cv : CvEnv)
    (denv : Nat → String → Nat × Bytes) (fuel : Nat) (argv1 : Int) :
    Option (Except (Nat × String) (List String × FS × Option (Nat × String))) :=
  match generate_image_urls env fuel 1 with
  | none => none
  | some (.error e) => some (.error e)
  | some (.ok image_urls) =>
    let r := run_from "../images" "../gs-images" cv denv image_urls 0 emptyFS
    some (.ok (image_urls, r.1, r.2))

/-- A candidate URL passed some reachability check of the run: the predicate
each member of the returned list satisfies at the moment it is appended. -/
def PassedCheck (env : Env) (u : String) : Prop :=
  ∃ k, (is_accessible (env.get k u) u).1 = true

/-- C7's invariant at a point of the run where `k` urls have been processed:
the grayscale directory holds at most `k` files, and each of them has a raw
counterpart of the same name (same index and extension) derived from some
position of the url list. -/
def gsInv (imgDir gsDir : String) (urls : List String) (k : Nat) (fs : FS) : Prop :=
  (fs.filesIn gsDir).length ≤ k ∧
  ∀ s ∈ fs.filesIn gsDir, s ∈ fs.filesIn imgDir ∧
    ∃ m u, urls.get? m = some u ∧ s = (toString (m + 1) ++ (os_path_splitext u).2).data

/-- A service environment whose every text response is one reachable URL. -/
def envW : Env :=
  { generate := fun _ _ => .ok "https://picsum.photos/id/10/200.jpg"
    get := fun _ _ => .status 200 }

/-- A service environment whose first call already fails server-side. -/
def envErr : Env :=
  { generate := fun _ _ => .error "503 Service Unavailable"
    get := fun _ _ => .status 200 }

/-- A service environment whose extraction output lists the same reachable
URL on two lines. -/
def envDup : Env :=
  { generate := fun _ _ => .ok "https://img.example/pic.jpg\nhttps://img.example/pic.jpg"
    get := fun _ _ => .status 200 }

/-- An environment whose every reachability GET raises a RequestException. -/
def envExn : Env :=
  { generate := fun _ _ => .ok "not a url"
    get := fun _ _ => .requestException "No connection adapters were found" }

/-- OpenCV oracle that decodes everything to one and the same handle. -/
def cvAll : CvEnv :=
  { decode := fun _ => some 0
    cvtColor_gray := fun i => i
    imencode := fun _ => [7] }

/-- OpenCV oracle that can decode nothing. -/
def cvNone : CvEnv :=
  { decode := fun _ => none
    cvtColor_gray := fun i => i
    imencode := fun _ => [7] }

/-- Download oracle: every GET succeeds with a one-byte body. -/
def denvOk : Nat → String → Nat × Bytes := fun i _ => (200, [i])

lemma acquireFromBatch_inv (env : Env) (n : Int) :
    ∀ (urls acc : List String) (c : Nat),
      (acc.length : Int) < n → (∀ u ∈ acc, PassedCheck env u) →
      ((acquireFromBatch env n urls acc c).1.length : Int) ≤ n ∧
        ∀ u ∈ (acquireFromBatch env n urls acc c).1, PassedCheck env u := by
  intro urls
  induction urls with
  | nil =>
    intro acc c hlt hP
    exact ⟨le_of_lt hlt, hP⟩
  | cons url rest ih =>
    intro acc c hlt hP
    rw [acquireFromBatch]
    cases hacc : (is_accessible (env.get c (pyStrip url)) (pyStrip url)).1 with
    | true =>
      have hP' : ∀ u ∈ acc ++ [pyStrip url], PassedCheck env u := by
        intro u hu
        rcases List.mem_append.1 hu with h | h
        · exact hP u h
        · rcases List.mem_singleton.1 h with rfl
          exact ⟨c, hacc⟩
      have hlen : ((acc ++ [pyStrip url]).length : Int) ≤ n := by
        simp only [List.length_append, List.length_singleton]
        push_cast
        omega
      have hred : (if (true = true) then acc ++ [pyStrip url] else acc) = acc ++ [pyStrip url] := rfl
      rw [hred]
      by_cases heq : (((acc ++ [pyStrip url]).length : Int) = n)
      · rw [if_pos heq]
        exact ⟨le_of_eq heq, hP'⟩
      · rw [if_neg heq]
        exact ih (acc ++ [pyStrip url]) (c + 1) (lt_of_le_of_ne hlen heq) hP'
    | false =>
      have hred : (if (false = true) then acc ++ [pyStrip url] else acc) = acc := rfl
      rw [hred]
      rw [if_neg (ne_of_lt hlt)]
      exact ih acc (c + 1) hlt hP

lemma generate_loop_inv (env : Env) (n : Int) :
    ∀ (fuel : Nat) (image_urls : List String) (g c : Nat),
      (image_urls.length : Int) ≤ n → (∀ u ∈ image_urls, PassedCheck env u) →
      ∀ r, generate_image_urls_loop env n fuel image_urls g c = some r →
      (∃ msg, r = .error (1, "Error: " ++ msg)) ∨
        (∃ l g' c', r = .ok (l, g', c') ∧ (l.length : Int) = n ∧
          ∀ u ∈ l, PassedCheck env u) := by
  intro fuel
  induction fuel with
  | zero =>
    intro _ _ _ _ _ r h
    rw [generate_image_urls_loop] at h
    exact Option.noConfusion h
  | succ fuel ih =>
    intro image_urls g c hlen hP r h
    rw [generate_image_urls_loop] at h
    split at h
    next hlt =>
      split at h
      next _ err heq =>
        injection h with h'
        exact Or.inl ⟨err, h'.symm⟩
      next _ gentext heq =>
        split at h
        next _ err2 heq2 =>
          injection h with h'
          exact Or.inl ⟨err2, h'.symm⟩
        next _ extext heq2 =>
          have hb := acquireFromBatch_inv env n (pySplitNl (pyStrip extext))
            image_urls c hlt hP
          exact ih _ _ _ hb.1 hb.2 r h
    next hnlt =>
      injection h with h'
      refine Or.inr ⟨image_urls, g, c, h'.symm, ?_, hP⟩
      omega

lemma generate_image_urls_cases (env : Env) (fuel : Nat) (n : Int) (r : Except (Nat × String) (List String))
    (hn : 0 ≤ n) (h : generate_image_urls env fuel n = some r) :
    (∃ msg, r = .error (1, "Error: " ++ msg)) ∨
      (∃ l, r = .ok l ∧ (l.length : Int) = n ∧ ∀ u ∈ l, PassedCheck env u) := by
  unfold generate_image_urls at h
  cases hr : generate_image_urls_run env fuel n with
  | none => rw [hr] at h; exact absurd h (by simp)
  | some t =>
    rw [hr] at h
    simp only [Option.map_some'] at h
    injection h with h'
    have hloop := generate_loop_inv env n fuel [] 0 0 (by simpa using hn)
      (by intro u hu; exact absurd hu (List.not_mem_nil u)) t hr
    rcases hloop with ⟨msg, hmsg⟩ | ⟨l, g', c', heq, hlenl, hPl⟩
    · subst hmsg
      exact Or.inl ⟨msg, h'.symm⟩
    · subst heq
      exact Or.inr ⟨l, h'.symm, hlenl, hPl⟩

lemma generate_image_urls_ok (env : Env) (fuel : Nat) (n : Int) (l : List String)
    (hn : 0 ≤ n) (h : generate_image_urls env fuel n = some (.ok l)) :
    (l.length : Int) = n ∧ ∀ u ∈ l, PassedCheck env u := by
  rcases generate_image_urls_cases env fuel n (.ok l) hn h with ⟨msg, hmsg⟩ | ⟨l', heq, hlen, hP⟩
  · exact absurd hmsg (by simp)
  · injection heq with h2
    subst h2
    exact ⟨hlen, hP⟩

/-- C1: for every requested count N ≥ 1, when `generate_image_urls` returns a
list (rather than exiting or looping on), the list has exactly N entries, and
every entry passed the `is_accessible` reachability check — the GET of some
check returned HTTP 200 on it — at the moment it was appended. -/
theorem C1_acquisition_exact_count_reachable (env : Env) (fuel : Nat) (n : Int)
    (l : List String) (hn : 1 ≤ n)
    (h : generate_image_urls env fuel n = some (.ok l)) :
    (l.length : Int) = n ∧ ∀ u ∈ l, ∃ k, (is_accessible (env.get k u) u).1 = true :=
  generate_image_urls_ok env fuel n l (by omega) h

/-- Witness for C1 at the concrete environment `envW` and count 1. -/
theorem C1_witness :
    ((["https://picsum.photos/id/10/200.jpg"] : List String).length : Int) = 1 ∧
      ∀ u ∈ (["https://picsum.photos/id/10/200.jpg"] : List String),
        ∃ k, (is_accessible (envW.get k u) u).1 = true :=
  C1_acquisition_exact_count_reachable envW 2 1 _ (by norm_num) rfl

/-- C5: for N ≥ 1, whatever `generate_image_urls` returns is either a
`sys.exit(1)` event carrying the printed terminal `Error: {message}` line
(the `genai.errors.ServerError` path) or a complete list of exactly N URLs —
never a partial list of fewer than N. -/
theorem C5_server_error_exits_no_partial_list (env : Env) (fuel : Nat) (n : Int)
    (r : Except (Nat × String) (List String)) (hn : 1 ≤ n)
    (h : generate_image_urls env fuel n = some r) :
    (∃ msg, r = .error (1, "Error: " ++ msg)) ∨
      (∃ l, r = .ok l ∧ (l.length : Int) = n) := by
  rcases generate_image_urls_cases env fuel n r (by omega) h with he | ⟨l, hok, hlen, _⟩
  · exact Or.inl he
  · exact Or.inr ⟨l, hok, hlen⟩

/-- Witness for C5 at `envErr`, whose first generation call fails server-side. -/
theorem C5_witness :
    (∃ msg, (.error (1, "Error: 503 Service Unavailable") :
        Except (Nat × String) (List String)) = .error (1, "Error: " ++ msg)) ∨
      (∃ l, (.error (1, "Error: 503 Service Unavailable") :
        Except (Nat × String) (List String)) = .ok l ∧ (l.length : Int) = 3) :=
  C5_server_error_exits_no_partial_list envErr 1 3 _ (by norm_num) rfl

/-- C8: for a requested count ≤ 0 the `while` body never runs:
`generate_image_urls` returns the empty list immediately, having issued zero
`generate_content` calls and zero reachability GETs, in every environment. -/
theorem C8_nonpositive_count_returns_empty_no_calls (env : Env) (fuel : Nat) (n : Int)
    (hn : n ≤ 0) (hf : 1 ≤ fuel) :
    generate_image_urls_run env fuel n = some (.ok ([], 0, 0)) ∧
      generate_image_urls env fuel n = some (.ok []) := by
  obtain ⟨fuel, rfl⟩ : ∃ m, fuel = m + 1 := ⟨fuel - 1, by omega⟩
  have h1 : generate_image_urls_run env (fuel + 1) n = some (.ok ([], 0, 0)) := by
    unfold generate_image_urls_run
    rw [generate_image_urls_loop]
    rw [if_neg (by simp only [List.length_nil, Nat.cast_zero]; omega)]
  refine ⟨h1, ?_⟩
  unfold generate_image_urls
  rw [h1]
  rfl

/-- Witness for C8 at `envW` and count 0. -/
theorem C8_witness :
    generate_image_urls_run envW 1 0 = some (.ok ([], 0, 0)) ∧
      generate_image_urls envW 1 0 = some (.ok []) :=
  C8_nonpositive_count_returns_empty_no_calls envW 1 0 (by norm_num) (by norm_num)

/-- C6: a reachability GET that raises `requests.RequestException` or
`ValueError` is caught inside `is_accessible`: the function prints an
`Error accessing {url}: {e}` line and returns false rather than propagating,
and the batch loop then moves on to the remaining candidates with nothing
appended and without aborting. -/
theorem C6_is_accessible_catches_and_skips (env : Env) (n : Int) (url : String)
    (rest acc : List String) (c : Nat) (e : String)
    (hresp : env.get c (pyStrip url) = .requestException e ∨
      env.get c (pyStrip url) = .valueError e)
    (hlen : (acc.length : Int) ≠ n) :
    (is_accessible (env.get c (pyStrip url)) (pyStrip url)).1 = false ∧
      (is_accessible (env.get c (pyStrip url)) (pyStrip url)).2 =
        ["Error accessing " ++ pyStrip url ++ ": " ++ e] ∧
      acquireFromBatch env n (url :: rest) acc c =
        acquireFromBatch env n rest acc (c + 1) := by
  have hfa : is_accessible (env.get c (pyStrip url)) (pyStrip url) =
      (false, ["Error accessing " ++ pyStrip url ++ ": " ++ e]) := by
    rcases hresp with h | h <;> rw [h] <;> rfl
  refine ⟨by rw [hfa], by rw [hfa], ?_⟩
  rw [acquireFromBatch]
  simp only [hfa]
  have hred : (if (false = true) then acc ++ [pyStrip url] else acc) = acc := rfl
  rw [hred]
  rw [if_neg hlen]

/-- Witness for C6 at `envExn`, whose GETs all raise `RequestException`. -/
theorem C6_witness :
    (is_accessible (envExn.get 0 (pyStrip "not a url")) (pyStrip "not a url")).1 = false ∧
      (is_accessible (envExn.get 0 (pyStrip "not a url")) (pyStrip "not a url")).2 =
        ["Error accessing " ++ pyStrip "not a url" ++ ": " ++
          "No connection adapters were found"] ∧
      acquireFromBatch envExn 1 ["not a url"] [] 0 = acquireFromBatch envExn 1 [] [] 1 :=
  C6_is_accessible_catches_and_skips envExn 1 "not a url" [] [] 0
    "No connection adapters were found" (Or.inl rfl) (by norm_num)

/-- C9: acquisition performs no deduplication — with a service whose
extraction output lists the same reachable URL on two lines,
`generate_image_urls 2` returns that URL twice, and the download loop then
writes two distinct raw files both fetched from it. -/
theorem C9_duplicate_urls_not_deduplicated :
    generate_image_urls envDup 2 2 =
      some (.ok ["https://img.example/pic.jpg", "https://img.example/pic.jpg"]) ∧
      (run_from (IMAGES_DIR "/b") (GSIMAGES_DIR "/b") cvAll denvOk
          ["https://img.example/pic.jpg", "https://img.example/pic.jpg"] 0 emptyFS).1.lookup
        "/b/../images/1.jpg" = some [0] ∧
      (run_from (IMAGES_DIR "/b") (GSIMAGES_DIR "/b") cvAll denvOk
          ["https://img.example/pic.jpg", "https://img.example/pic.jpg"] 0 emptyFS).1.lookup
        "/b/../images/2.jpg" = some [1] :=
  ⟨rfl, rfl, rfl⟩

lemma FS.lookup_writeFile_self (fs : FS) (p : String) (content : Bytes) :
    (fs.writeFile p content).lookup p = some content := by
  simp [FS.writeFile, FS.lookup, List.find?]

/-- C3: `download_image` on a non-200 response prints an error and calls
`sys.exit(1)`, leaving the file system exactly as it was — the destination
file is neither created nor written, so no zero-length or partial file
exists afterwards; on a 200 response it writes the destination file with the
full response body. -/
theorem C3_download_non200_exits_without_writing (status : Nat) (body : Bytes)
    (url filename : String) (fs : FS) :
    (status ≠ 200 →
      download_image (status, body) url filename fs =
        .error (1, "Error while downloading image from " ++ url, fs)) ∧
    (status = 200 →
      ∃ fs', download_image (status, body) url filename fs = .ok fs' ∧
        fs'.lookup filename = some body) := by
  constructor
  · intro hne
    unfold download_image
    rw [if_neg hne]
  · intro h200
    refine ⟨(fs.makedirs (os_path_dirname filename)).writeFile filename body, ?_, ?_⟩
    · unfold download_image
      rw [if_pos h200]
    · exact FS.lookup_writeFile_self _ _ _

/-- Witness for C3: the 200 branch writes the full body at the destination. -/
theorem C3_witness :
    ∃ fs', download_image (200, [7]) "https://img.example/pic.jpg"
        "/b/../images/1.jpg" emptyFS = .ok fs' ∧
      fs'.lookup "/b/../images/1.jpg" = some [7] :=
  (C3_download_non200_exits_without_writing 200 [7] "https://img.example/pic.jpg"
    "/b/../images/1.jpg" emptyFS).2 rfl

/-- C4: when `cv2.imread` cannot produce an image (missing file, corrupt
bytes, unsupported format), `to_grayscale` prints an error and returns with
the file system untouched — no output file written and no output directory
created — and the driver loop treats a normally-returning conversion step as
non-fatal, continuing with the remaining urls. -/
theorem C4_undecodable_source_nonfatal (cv : CvEnv) (input_image output_image : String)
    (fs : FS) (h : (fs.lookup input_image).bind cv.decode = none) :
    to_grayscale cv input_image output_image fs =
      (fs, ["Error: could not read " ++ input_image]) ∧
    ∀ (imgDir gsDir : String) (denv : Nat → String → Nat × Bytes)
      (rest : List String) (i : Nat) (url : String) (fs0 fs1 : FS),
      process_one imgDir gsDir cv denv i url fs0 = .ok fs1 →
      run_from imgDir gsDir cv denv (url :: rest) i fs0 =
        run_from imgDir gsDir cv denv rest (i + 1) fs1 := by
  constructor
  · unfold to_grayscale
    rw [h]
  · intro imgDir gsDir denv rest i url fs0 fs1 hok
    rw [run_from, hok]

/-- Witness for C4: an all-rejecting decoder on an absent source file. -/
theorem C4_witness :
    (to_grayscale cvNone "/b/../images/1.jpg" "/b/../gs-images/1.jpg" emptyFS =
      (emptyFS, ["Error: could not read /b/../images/1.jpg"])) ∧
    ∀ (imgDir gsDir : String) (denv : Nat → String → Nat × Bytes)
      (rest : List String) (i : Nat) (url : String) (fs0 fs1 : FS),
      process_one imgDir gsDir cvNone denv i url fs0 = .ok fs1 →
      run_from imgDir gsDir cvNone denv (url :: rest) i fs0 =
        run_from imgDir gsDir cvNone denv rest (i + 1) fs1 :=
  C4_undecodable_source_nonfatal cvNone "/b/../images/1.jpg" "/b/../gs-images/1.jpg"
    emptyFS rfl

/-- C2 counterexample: the legacy top-level driver, invoked with command-line
argument 3, still works on exactly one URL — it hardcodes
`generate_image_urls(1)` — so the number of images attempted is 1, not the
argument 3. -/
theorem C2_counterexample :
    (main_legacy envW cvAll denvOk 2 3).map
        (Except.map (fun t => (t.1.length : Int))) = some (.ok 1) ∧
      (1 : Int) ≠ 3 :=
  ⟨rfl, by norm_num⟩

/-- C2 amended: the driver kept under `src/src/` does drive acquisition by
the parsed command-line count — a successful run works on exactly
`argv1`-many URLs — while the legacy top-level driver ignores its
command-line argument entirely. -/
theorem C2_src_driver_uses_argv_count (base : String) (env : Env) (cv : CvEnv)
    (denv : Nat → String → Nat × Bytes) (fuel : Nat) (n : Int) (urls : List String)
    (hn : 1 ≤ n) (h : generate_image_urls env fuel n = some (.ok urls)) :
    main_src base env cv denv fuel n =
      some (.ok (urls,
        (run_from (IMAGES_DIR base) (GSIMAGES_DIR base) cv denv urls 0 emptyFS).1,
        (run_from (IMAGES_DIR base) (GSIMAGES_DIR base) cv denv urls 0 emptyFS).2)) ∧
      (urls.length : Int) = n ∧
      ∀ a b : Int, main_legacy env cv denv fuel a = main_legacy env cv denv fuel b := by
  refine ⟨?_, (generate_image_urls_ok env fuel n urls (by omega) h).1, fun a b => rfl⟩
  unfold main_src
  rw [h]

/-- Witness for the amended C2 at `envW`, argument 1. -/
theorem C2_witness :
    main_src "/b" envW cvAll denvOk 2 1 =
      some (.ok (["https://picsum.photos/id/10/200.jpg"],
        (run_from (IMAGES_DIR "/b") (GSIMAGES_DIR "/b") cvAll denvOk
          ["https://picsum.photos/id/10/200.jpg"] 0 emptyFS).1,
        (run_from (IMAGES_DIR "/b") (GSIMAGES_DIR "/b") cvAll denvOk
          ["https://picsum.photos/id/10/200.jpg"] 0 emptyFS).2)) ∧
      ((["https://picsum.photos/id/10/200.jpg"] : List String).length : Int) = 1 ∧
      ∀ a b : Int, main_legacy envW cvAll denvOk 2 a = main_legacy envW cvAll denvOk 2 b :=
  C2_src_driver_uses_argv_count "/b" envW cvAll denvOk 2 1
    ["https://picsum.photos/id/10/200.jpg"] (by norm_num) rfl

lemma lastIdx_ge_neg_one (l : List Char) (c : Char) : -1 ≤ lastIdx l c := by
  induction l with
  | nil => simp [lastIdx]
  | cons a as ih =>
    rw [lastIdx]
    split
    · omega
    · split <;> omega

lemma lastIdx_eq_neg_one_of_not_mem (l : List Char) (c : Char) (h : c ∉ l) :
    lastIdx l c = -1 := by
  induction l with
  | nil => rfl
  | cons a as ih =>
    simp only [List.mem_cons, not_or] at h
    rw [lastIdx, ih h.2]
    rw [if_neg (by omega)]
    rw [if_neg (fun hac => h.1 hac.symm)]

lemma lastIdx_nonneg_of_mem (l : List Char) (c : Char) (h : c ∈ l) :
    0 ≤ lastIdx l c := by
  induction l with
  | nil => exact absurd h (List.not_mem_nil c)
  | cons a as ih =>
    rw [lastIdx]
    by_cases hm : c ∈ as
    · rw [if_pos (ih hm)]
      have := ih hm
      omega
    · have hca : c = a := by
        rcases List.mem_cons.1 h with h1 | h1
        · exact h1
        · exact absurd h1 hm
      by_cases hr : 0 ≤ lastIdx as c
      · rw [if_pos hr]; omega
      · rw [if_neg hr, if_pos hca.symm]

lemma lastIdx_dot_le_slash (l : List Char)
    (h : ∀ ch ∈ lastSegmentChars l, ch ≠ '.') :
    lastIdx l '.' ≤ lastIdx l '/' := by
  induction l with
  | nil => simp [lastIdx]
  | cons a as ih =>
    by_cases hs : '/' ∈ as
    · have hseg : lastSegmentChars (a :: as) = lastSegmentChars as := by
        rw [lastSegmentChars, if_pos hs]
      rw [hseg] at h
      have hle := ih h
      have hnn : 0 ≤ lastIdx as '/' := lastIdx_nonneg_of_mem as '/' hs
      simp only [lastIdx]
      rw [if_pos hnn]
      split
      · omega
      · split <;> omega
    · by_cases ha : a = '/'
      · have hseg : lastSegmentChars (a :: as) = as := by
          rw [lastSegmentChars, if_neg hs, if_pos ha]
        rw [hseg] at h
        have hdot : '.' ∉ as := fun hm => h '.' hm rfl
        have hL : lastIdx (a :: as) '.' = -1 := by
          rw [lastIdx, lastIdx_eq_neg_one_of_not_mem as '.' hdot]
          rw [if_neg (by omega)]
          rw [if_neg (by rw [ha]; decide)]
        rw [hL]
        exact lastIdx_ge_neg_one (a :: as) '/'
      · have hseg : lastSegmentChars (a :: as) = a :: as := by
          rw [lastSegmentChars, if_neg hs, if_neg ha]
        rw [hseg] at h
        have hdot : '.' ∉ a :: as := fun hm => h '.' hm rfl
        rw [lastIdx_eq_neg_one_of_not_mem _ _ hdot]
        exact lastIdx_ge_neg_one (a :: as) '/'

lemma splitext_ext_eq_empty (p : String)
    (h : lastIdx p.data '.' ≤ lastIdx p.data '/') :
    (os_path_splitext p).2 = "" := by
  simp only [os_path_splitext]
  rw [if_neg (not_lt.2 h)]

set_option maxRecDepth 100000 in
/-- C10: the inferred extension naming both the raw and the grayscale file is
`os.path.splitext` applied to the whole URL string: when the URL's last path
segment contains no dot the extension is empty and the files are named by
the bare index, and a query string sitting after `.jpg` stays inside the
inferred extension. -/
theorem C10_extension_is_splitext_of_url (url : String)
    (h : ∀ ch ∈ lastSegmentChars url.data, ch ≠ '.') :
    (os_path_splitext url).2 = "" ∧
    (∀ (dir : String) (i : Nat),
      dir ++ "/" ++ toString (i + 1) ++ (os_path_splitext url).2 =
        dir ++ "/" ++ toString (i + 1)) ∧
    (os_path_splitext "https://img.example/photo.jpg?width=200").2 = ".jpg?width=200" := by
  have h1 : (os_path_splitext url).2 = "" :=
    splitext_ext_eq_empty url (lastIdx_dot_le_slash url.data h)
  refine ⟨h1, ?_, rfl⟩
  intro dir i
  rw [h1, String.append_empty]

set_option maxRecDepth 100000 in
/-- Witness for C10 at a URL whose last segment has no dot. -/
theorem C10_witness :
    (os_path_splitext "https://img.example/photos/raw").2 = "" ∧
    (∀ (dir : String) (i : Nat),
      dir ++ "/" ++ toString (i + 1) ++ (os_path_splitext "https://img.example/photos/raw").2 =
        dir ++ "/" ++ toString (i + 1)) ∧
    (os_path_splitext "https://img.example/photo.jpg?width=200").2 = ".jpg?width=200" :=
  C10_extension_is_splitext_of_url "https://img.example/photos/raw" (by decide)

lemma stripPre_append (p s : List Char) : stripPre p (p ++ s) = some s := by
  induction p with
  | nil => rfl
  | cons a as ih => simp [stripPre, ih]

lemma stripPre_cancel (p a b : List Char) :
    stripPre (p ++ a) (p ++ b) = stripPre a b := by
  induction p with
  | nil => rfl
  | cons x xs ih => simp [stripPre, ih]

lemma stripPre_cons_eq (a : Char) (as bs : List Char) :
    stripPre (a :: as) (a :: bs) = stripPre as bs := by
  simp [stripPre]

lemma stripPre_cons_ne (a b : Char) (as bs : List Char) (h : a ≠ b) :
    stripPre (a :: as) (b :: bs) = none := by
  simp [stripPre, h]

lemma stripPre_dir_path (dir x : String) :
    stripPre (dir ++ "/").data ((dir ++ "/" ++ x).data) = some x.data := by
  rw [String.data_append]
  exact stripPre_append _ _

lemma stripPre_gs_of_img (base x : String) :
    stripPre ((GSIMAGES_DIR base ++ "/").data) ((IMAGES_DIR base ++ "/" ++ x).data) = none := by
  have h1 : (GSIMAGES_DIR base ++ "/").data = base.data ++ "/../gs-images/".data := by
    show ((base ++ "/../gs-images") ++ "/").data = _
    rw [String.data_append, String.data_append, List.append_assoc]
    rfl
  have h2 : (IMAGES_DIR base ++ "/" ++ x).data = base.data ++ ("/../images/".data ++ x.data) := by
    show (((base ++ "/../images") ++ "/") ++ x).data = _
    rw [String.data_append, String.data_append, String.data_append]
    rw [List.append_assoc, List.append_assoc]
    rfl
  rw [h1, h2, stripPre_cancel]
  show stripPre
      ('/' :: '.' :: '.' :: '/' :: 'g' :: 's' :: '-' :: 'i' :: 'm' :: 'a' :: 'g' :: 'e' :: 's' :: '/' :: [])
      ('/' :: '.' :: '.' :: '/' :: 'i' :: 'm' :: 'a' :: 'g' :: 'e' :: 's' :: '/' :: x.data) = none
  rw [stripPre_cons_eq, stripPre_cons_eq, stripPre_cons_eq, stripPre_cons_eq]
  exact stripPre_cons_ne _ _ _ _ (by decide)

lemma filterMap_filter_eq_of_none {α β : Type} (f : α → Option β) (q : α → Bool)
    (l : List α) (h : ∀ x ∈ l, q x = false → f x = none) :
    (l.filter q).filterMap f = l.filterMap f := by
  induction l with
  | nil => rfl
  | cons a as ih =>
    have ih' := ih (fun x hx => h x (List.mem_cons_of_mem a hx))
    by_cases hq : q a = true
    · rw [List.filter_cons_of_pos hq]
      cases hfa : f a with
      | none => rw [List.filterMap_cons_none hfa, List.filterMap_cons_none hfa, ih']
      | some b => rw [List.filterMap_cons_some hfa, List.filterMap_cons_some hfa, ih']
    · have hq' : q a = false := by
        cases hqa : q a
        · rfl
        · exact absurd hqa hq
      rw [List.filter_cons_of_neg (by rw [hq']; exact Bool.false_ne_true)]
      rw [List.filterMap_cons_none (h a (List.mem_cons_self a as) hq'), ih']

lemma FS.files_makedirs (fs : FS) (d : String) : (fs.makedirs d).files = fs.files := by
  unfold FS.makedirs
  split <;> rfl

lemma FS.filesIn_makedirs (fs : FS) (d dir : String) :
    (fs.makedirs d).filesIn dir = fs.filesIn dir := by
  unfold FS.filesIn
  rw [FS.files_makedirs]

lemma FS.filesIn_writeFile_none (fs : FS) (p : String) (content : Bytes) (dir : String)
    (h : stripPre (dir ++ "/").data p.data = none) :
    (fs.writeFile p content).filesIn dir = fs.filesIn dir := by
  unfold FS.writeFile FS.filesIn
  simp only [List.filterMap_cons, h]
  exact filterMap_filter_eq_of_none _ _ _ (fun x hx hq => by
    have hxp : x.1 = p := by simpa using hq
    show stripPre (dir ++ "/").data x.1.data = none
    rw [hxp]
    exact h)

lemma FS.mem_filesIn_writeFile (fs : FS) (p : String) (content : Bytes) (dir : String)
    (s : List Char) (h : s ∈ fs.filesIn dir) :
    s ∈ (fs.writeFile p content).filesIn dir := by
  unfold FS.filesIn at h ⊢
  unfold FS.writeFile
  rcases List.mem_filterMap.1 h with ⟨pc, hmem, hf⟩
  by_cases hp : pc.1 = p
  · refine List.mem_filterMap.2 ⟨(p, content), List.mem_cons_self _ _, ?_⟩
    show stripPre (dir ++ "/").data p.data = some s
    rw [← hp]
    exact hf
  · refine List.mem_filterMap.2 ⟨pc, List.mem_cons_of_mem _ (List.mem_filter.2 ⟨hmem, ?_⟩), hf⟩
    simpa using hp

lemma FS.self_mem_filesIn_writeFile (fs : FS) (p : String) (content : Bytes) (dir : String)
    (s : List Char) (h : stripPre (dir ++ "/").data p.data = some s) :
    s ∈ (fs.writeFile p content).filesIn dir := by
  unfold FS.writeFile FS.filesIn
  exact List.mem_filterMap.2 ⟨(p, content), List.mem_cons_self _ _, h⟩

lemma FS.mem_filesIn_writeFile_elim (fs : FS) (p : String) (content : Bytes) (dir : String)
    (s : List Char) (h : s ∈ (fs.writeFile p content).filesIn dir) :
    stripPre (dir ++ "/").data p.data = some s ∨ s ∈ fs.filesIn dir := by
  unfold FS.writeFile FS.filesIn at h
  rcases List.mem_filterMap.1 h with ⟨pc, hmem, hf⟩
  rcases List.mem_cons.1 hmem with h1 | h1
  · subst h1
    exact Or.inl hf
  · exact Or.inr (List.mem_filterMap.2 ⟨pc, (List.mem_filter.1 h1).1, hf⟩)

lemma FS.filesIn_writeFile_length_le (fs : FS) (p : String) (content : Bytes) (dir : String) :
    ((fs.writeFile p content).filesIn dir).length ≤ (fs.filesIn dir).length + 1 := by
  unfold FS.writeFile FS.filesIn
  have hsub : ((fs.files.filter (fun pc => pc.1 != p)).filterMap
      (fun pc => stripPre (dir ++ "/").data pc.1.data)).length ≤
      (fs.files.filterMap (fun pc => stripPre (dir ++ "/").data pc.1.data)).length :=
    ((List.filter_sublist fs.files).filterMap _).length_le
  cases hfa : stripPre (dir ++ "/").data p.data with
  | none =>
    simp only [List.filterMap_cons, hfa]
    omega
  | some s0 =>
    simp only [List.filterMap_cons, hfa, List.length_cons]
    omega

lemma gsInv_mono (imgDir gsDir : String) (urls : List String) (k k' : Nat) (fs : FS)
    (hk : k ≤ k') (h : gsInv imgDir gsDir urls k fs) : gsInv imgDir gsDir urls k' fs :=
  ⟨le_trans h.1 hk, h.2⟩

lemma to_grayscale_fst_none (cv : CvEnv) (a b : String) (fs0 : FS)
    (h : (fs0.lookup a).bind cv.decode = none) : (to_grayscale cv a b fs0).1 = fs0 := by
  unfold to_grayscale
  rw [h]

lemma to_grayscale_fst_some (cv : CvEnv) (a b : String) (fs0 : FS) (im : Nat)
    (h : (fs0.lookup a).bind cv.decode = some im) :
    (to_grayscale cv a b fs0).1 =
      (fs0.makedirs (os_path_dirname b)).writeFile b (cv.imencode (cv.cvtColor_gray im)) := by
  unfold to_grayscale
  rw [h]

lemma filesIn_write_makedirs_none (fs : FS) (d p : String) (content : Bytes) (dir : String)
    (h : stripPre (dir ++ "/").data p.data = none) :
    ((fs.makedirs d).writeFile p content).filesIn dir = fs.filesIn dir := by
  rw [FS.filesIn_writeFile_none _ _ _ _ h, FS.filesIn_makedirs]

lemma mem_filesIn_write_makedirs (fs : FS) (d p : String) (content : Bytes) (dir : String)
    (s : List Char) (h : s ∈ fs.filesIn dir) :
    s ∈ ((fs.makedirs d).writeFile p content).filesIn dir :=
  FS.mem_filesIn_writeFile _ _ _ _ _ (by rw [FS.filesIn_makedirs]; exact h)

lemma length_filesIn_write_makedirs_le (fs : FS) (d p : String) (content : Bytes)
    (dir : String) :
    (((fs.makedirs d).writeFile p content).filesIn dir).length ≤ (fs.filesIn dir).length + 1 := by
  have h := FS.filesIn_writeFile_length_le (fs.makedirs d) p content dir
  rwa [FS.filesIn_makedirs] at h

lemma gsInv_after_download_convert (imgDir gsDir : String) (urls : List String)
    (k i : Nat) (url imagefile grayfile : String) (cv : CvEnv) (body : Bytes) (fs : FS)
    (hA1 : stripPre ((gsDir ++ "/").data) imagefile.data = none)
    (hA2 : stripPre ((gsDir ++ "/").data) grayfile.data =
      some (toString (i + 1) ++ (os_path_splitext url).2).data)
    (hA3 : stripPre ((imgDir ++ "/").data) imagefile.data =
      some (toString (i + 1) ++ (os_path_splitext url).2).data)
    (hurl : urls.get? i = some url)
    (hinv : gsInv imgDir gsDir urls k fs) :
    gsInv imgDir gsDir urls (k + 1)
      (to_grayscale cv imagefile grayfile
        ((fs.makedirs (os_path_dirname imagefile)).writeFile imagefile body)).1 := by
  have hgsfs1 : ((fs.makedirs (os_path_dirname imagefile)).writeFile imagefile body).filesIn
      gsDir = fs.filesIn gsDir := filesIn_write_makedirs_none fs _ imagefile body gsDir hA1
  have himgmono : ∀ s, s ∈ fs.filesIn imgDir →
      s ∈ ((fs.makedirs (os_path_dirname imagefile)).writeFile imagefile body).filesIn imgDir :=
    fun s hs => mem_filesIn_write_makedirs fs _ imagefile body imgDir s hs
  have hselff : (toString (i + 1) ++ (os_path_splitext url).2).data ∈
      ((fs.makedirs (os_path_dirname imagefile)).writeFile imagefile body).filesIn imgDir :=
    FS.self_mem_filesIn_writeFile _ _ _ _ _ hA3
  cases hdec : (((fs.makedirs (os_path_dirname imagefile)).writeFile
      imagefile body).lookup imagefile).bind cv.decode with
  | none =>
    rw [to_grayscale_fst_none _ _ _ _ hdec]
    refine ⟨?_, ?_⟩
    · rw [hgsfs1]
      exact le_trans hinv.1 (Nat.le_succ k)
    · intro s hs
      rw [hgsfs1] at hs
      rcases hinv.2 s hs with ⟨hmem, hex⟩
      exact ⟨himgmono s hmem, hex⟩
  | some im =>
    rw [to_grayscale_fst_some _ _ _ _ _ hdec]
    refine ⟨?_, ?_⟩
    · have h1 := length_filesIn_write_makedirs_le
        ((fs.makedirs (os_path_dirname imagefile)).writeFile imagefile body)
        (os_path_dirname grayfile) grayfile (cv.imencode (cv.cvtColor_gray im)) gsDir
      rw [hgsfs1] at h1
      have h2 := hinv.1
      omega
    · intro s hs
      rcases FS.mem_filesIn_writeFile_elim _ _ _ _ _ hs with hnew | hold
      · rw [hA2] at hnew
        injection hnew with hnew
        subst hnew
        refine ⟨?_, i, url, hurl, rfl⟩
        exact mem_filesIn_write_makedirs _ _ _ _ _ _ hselff
      · rw [FS.filesIn_makedirs, hgsfs1] at hold
        rcases hinv.2 s hold with ⟨hmem, hex⟩
        exact ⟨mem_filesIn_write_makedirs _ _ _ _ _ _ (himgmono s hmem), hex⟩

lemma process_one_gsInv (imgDir gsDir : String) (cv : CvEnv)
    (denv : Nat → String → Nat × Bytes) (urls : List String) (k i : Nat)
    (url : String) (fs : FS)
    (hdisj : ∀ x : String, stripPre ((gsDir ++ "/").data) ((imgDir ++ "/" ++ x).data) = none)
    (hurl : urls.get? i = some url)
    (hinv : gsInv imgDir gsDir urls k fs) :
    (∀ e, process_one imgDir gsDir cv denv i url fs = .error e →
      gsInv imgDir gsDir urls (k + 1) e.2.2) ∧
    (∀ fs2, process_one imgDir gsDir cv denv i url fs = .ok fs2 →
      gsInv imgDir gsDir urls (k + 1) fs2) := by
  have hA1 : stripPre ((gsDir ++ "/").data)
      ((imgDir ++ "/" ++ toString (i + 1) ++ (os_path_splitext url).2).data) = none := by
    rw [String.append_assoc]
    exact hdisj (toString (i + 1) ++ (os_path_splitext url).2)
  have hA2 : stripPre ((gsDir ++ "/").data)
      ((gsDir ++ "/" ++ toString (i + 1) ++ (os_path_splitext url).2).data) =
      some (toString (i + 1) ++ (os_path_splitext url).2).data := by
    rw [String.append_assoc]
    exact stripPre_dir_path gsDir _
  have hA3 : stripPre ((imgDir ++ "/").data)
      ((imgDir ++ "/" ++ toString (i + 1) ++ (os_path_splitext url).2).data) =
      some (toString (i + 1) ++ (os_path_splitext url).2).data := by
    rw [String.append_assoc]
    exact stripPre_dir_path imgDir _
  simp only [process_one, download_image]
  by_cases h200 : (denv i url).1 = 200
  · rw [if_pos h200]
    constructor
    · intro e he
      exact absurd he (by simp)
    · intro fs2 hfs2
      injection hfs2 with hfs2
      rw [← hfs2]
      exact gsInv_after_download_convert imgDir gsDir urls k i url _ _ cv _ fs
        hA1 hA2 hA3 hurl hinv
  · rw [if_neg h200]
    constructor
    · intro e he
      injection he with he
      rw [← he]
      exact gsInv_mono _ _ _ k (k + 1) _ (Nat.le_succ k) hinv
    · intro fs2 hfs2
      exact absurd hfs2 (by simp)

lemma run_from_gsInv (imgDir gsDir : String) (cv : CvEnv)
    (denv : Nat → String → Nat × Bytes) (urls : List String)
    (hdisj : ∀ x : String, stripPre ((gsDir ++ "/").data) ((imgDir ++ "/" ++ x).data) = none) :
    ∀ (l : List String) (i k : Nat) (fs : FS),
      (∀ j, j < l.length → l.get? j = urls.get? (i + j)) →
      gsInv imgDir gsDir urls k fs →
      gsInv imgDir gsDir urls (k + l.length)
        (run_from imgDir gsDir cv denv l i fs).1 := by
  intro l
  induction l with
  | nil =>
    intro i k fs _ hinv
    exact gsInv_mono _ _ _ k _ _ (Nat.le_add_right k _) hinv
  | cons url rest ih =>
    intro i k fs hwin hinv
    have hurl : urls.get? i = some url := by
      have := hwin 0 (by simp)
      simpa using this.symm
    have hstep := process_one_gsInv imgDir gsDir cv denv urls k i url fs hdisj hurl hinv
    rw [run_from]
    cases hp : process_one imgDir gsDir cv denv i url fs with
    | error e =>
      obtain ⟨code, msg, fsx⟩ := e
      have h1 := hstep.1 (code, msg, fsx) hp
      have hle : k + 1 ≤ k + (url :: rest).length := by
        rw [List.length_cons]
        omega
      exact gsInv_mono _ _ _ (k + 1) _ _ hle h1
    | ok fs1 =>
      have h1 := hstep.2 fs1 hp
      have hwin' : ∀ j, j < rest.length → rest.get? j = urls.get? (i + 1 + j) := by
        intro j hj
        have := hwin (j + 1) (by simp; omega)
        simpa [Nat.add_assoc, Nat.add_comm 1 j] using this
      have := ih (i + 1) (k + 1) fs1 hwin' h1
      have hle : k + 1 + rest.length ≤ k + (url :: rest).length := by
        rw [List.length_cons]
        omega
      exact gsInv_mono _ _ _ (k + 1 + rest.length) _ _ hle this

/-- C7: at every point of a run whose acquisition succeeded for a requested
count N ≥ 1 — after any prefix of the download-and-convert loop, including a
premature exit — the grayscale directory holds at most N files, and each
grayscale file has a raw counterpart of the same name, the name being the
sequential index `i+1` of some url in the list followed by that url's
inferred extension. -/
theorem C7_grayscale_invariant (base : String) (env : Env) (cv : CvEnv)
    (denv : Nat → String → Nat × Bytes) (fuel : Nat) (n : Int)
    (urls : List String) (j : Nat) (hn : 1 ≤ n)
    (hacq : generate_image_urls env fuel n = some (.ok urls)) :
    (((run_from (IMAGES_DIR base) (GSIMAGES_DIR base) cv denv (urls.take j) 0
        emptyFS).1.filesIn (GSIMAGES_DIR base)).length : Int) ≤ n ∧
    ∀ s ∈ (run_from (IMAGES_DIR base) (GSIMAGES_DIR base) cv denv (urls.take j) 0
        emptyFS).1.filesIn (GSIMAGES_DIR base),
      s ∈ (run_from (IMAGES_DIR base) (GSIMAGES_DIR base) cv denv (urls.take j) 0
        emptyFS).1.filesIn (IMAGES_DIR base) ∧
      ∃ m u, urls.get? m = some u ∧
        s = (toString (m + 1) ++ (os_path_splitext u).2).data := by
  have hlen := (generate_image_urls_ok env fuel n urls (by omega) hacq).1
  have hwin : ∀ m, m < (urls.take j).length → (urls.take j).get? m = urls.get? (0 + m) := by
    intro m hm
    rw [List.length_take] at hm
    rw [Nat.zero_add]
    exact List.get?_take (lt_of_lt_of_le hm (min_le_left j urls.length))
  have hinv0 : gsInv (IMAGES_DIR base) (GSIMAGES_DIR base) urls 0 emptyFS := by
    constructor
    · rfl
    · intro s hs
      exact absurd hs (by simp [FS.filesIn, emptyFS])
  have hrun := run_from_gsInv (IMAGES_DIR base) (GSIMAGES_DIR base) cv denv urls
    (fun x => stripPre_gs_of_img base x) (urls.take j) 0 0 emptyFS hwin hinv0
  refine ⟨?_, hrun.2⟩
  have h1 := hrun.1
  have h2 : (urls.take j).length ≤ urls.length := by
    rw [List.length_take]
    exact min_le_right j urls.length
  have h3 : ((urls.length : Int)) = n := hlen
  omega

/-- Witness for C7 at the concrete one-url environment `envW`, after the full
run (prefix length 1). -/
theorem C7_witness :
    (((run_from (IMAGES_DIR "/b") (GSIMAGES_DIR "/b") cvAll denvOk
        ((["https://picsum.photos/id/10/200.jpg"] : List String).take 1) 0
        emptyFS).1.filesIn (GSIMAGES_DIR "/b")).length : Int) ≤ 1 ∧
    ∀ s ∈ (run_from (IMAGES_DIR "/b") (GSIMAGES_DIR "/b") cvAll denvOk
        ((["https://picsum.photos/id/10/200.jpg"] : List String).take 1) 0
        emptyFS).1.filesIn (GSIMAGES_DIR "/b"),
      s ∈ (run_from (IMAGES_DIR "/b") (GSIMAGES_DIR "/b") cvAll denvOk
        ((["https://picsum.photos/id/10/200.jpg"] : List String).take 1) 0
        emptyFS).1.filesIn (IMAGES_DIR "/b") ∧
      ∃ m u, (["https://picsum.photos/id/10/200.jpg"] : List String).get? m = some u ∧
        s = (toString (m + 1) ++ (os_path_splitext u).2).data :=
  C7_grayscale_invariant "/b" envW cvAll denvOk 2 1
    ["https://picsum.photos/id/10/200.jpg"] 1 (by norm_num) rfl

end ImageProcessing
